import Mathlib

/-!
# Verification of the jiraTable worklog utilities

Shallow embedding of the jiraTable repository (an Express proxy in front of a
Jira-like REST API plus React view components) together with proofs about the
two local computations the specification names: the client-side duration-string
parser and the server-side worklog aggregation/bucketing routines.

JavaScript numbers appearing here are always used as integers (second counts,
millisecond timestamps) except in the progress-percentage computation, which we
model over `ℚ`; `Math.floor`-style divisions become `Nat`/`Int` floor division.
-/

/-! ## Client utilities (`IssueDetailPanel` / `WorklogSummary` component file)

`parseTimeToSeconds` runs the regex
`/(?:(\d+)w\s*)?(?:(\d+)d\s*)?(?:(\d+)h\s*)?(?:(\d+)m)?/` against the trimmed
input.  Every group of the pattern is optional and the pattern is unanchored,
so the backtracking search succeeds at index 0 of every string (matching the
empty string in the worst case).  We embed the pattern by the equivalent
sequential matcher: at the current position each group greedily reads a maximal
digit run; the group matches iff that run is nonempty and immediately followed
by the group's unit letter (only the maximal run can be followed by a
non-digit, so greedy backtracking inside `\d+` never changes the outcome, and
because the remainder of the pattern always succeeds, a successful group is
never undone).  `\s*` then consumes whitespace, inside the group, i.e. only
when the group matched. -/

/-- The whitespace characters relevant to `\s` / `String.trim` for the ASCII
strings this code handles. -/
def isSpaceChar (c : Char) : Bool :=
  c == ' ' || c == '\t' || c == '\n' || c == '\r'

/-- JavaScript `String.prototype.trim`. -/
def trimChars (l : List Char) : List Char :=
  ((l.dropWhile isSpaceChar).reverse.dropWhile isSpaceChar).reverse

/-- Numeric value of a decimal digit character. -/
def digitVal (c : Char) : Nat := c.toNat - '0'.toNat

/-- Value of a decimal digit string, as computed by `parseInt` on a string of
digits. -/
def digitsToNat (ds : List Char) : Nat :=
  ds.foldl (fun a c => 10 * a + digitVal c) 0

/-- Split off the maximal leading run of decimal digits (the greedy `\d+`). -/
def takeDigits : List Char → List Char × List Char
  | [] => ([], [])
  | c :: cs =>
    if c.isDigit then
      let p := takeDigits cs
      (c :: p.1, p.2)
    else ([], c :: cs)

/-- One regex group `(\d+)u` at the current position: succeeds iff a nonempty
digit run is immediately followed by the unit character `u`. -/
def matchNumUnit (u : Char) (cs : List Char) : Option (Nat × List Char) :=
  match takeDigits cs with
  | ([], _) => none
  | (_ :: _, []) => none
  | (d :: ds, c :: rest) =>
    if c = u then some (digitsToNat (d :: ds), rest) else none

/-- The optional group `(?:(\d+)u\s*)?`: on failure it consumes nothing and
contributes `parseInt(match[i] || '0') = 0`. -/
def optGroupWs (u : Char) (cs : List Char) : Nat × List Char :=
  match matchNumUnit u cs with
  | some (n, rest) => (n, rest.dropWhile isSpaceChar)
  | none => (0, cs)

/-- The optional group `(?:(\d+)u)?` (no trailing `\s*`; used for minutes). -/
def optGroup (u : Char) (cs : List Char) : Nat × List Char :=
  match matchNumUnit u cs with
  | some (n, rest) => (n, rest)
  | none => (0, cs)

/-- The four captured groups (with `0` for an unmatched group) and the unread
remainder of the pattern match at position 0. -/
structure DurationMatch where
  weeks : Nat
  days : Nat
  hours : Nat
  minutes : Nat
  rest : List Char
deriving DecidableEq

/-- The whole pattern `(?:(\d+)w\s*)?(?:(\d+)d\s*)?(?:(\d+)h\s*)?(?:(\d+)m)?`
matched at position 0. -/
def matchDuration (cs : List Char) : DurationMatch :=
  let pw := optGroupWs 'w' cs
  let pd := optGroupWs 'd' pw.2
  let ph := optGroupWs 'h' pd.2
  let pm := optGroup 'm' ph.2
  ⟨pw.1, pd.1, ph.1, pm.1, pm.2⟩

/-- `timeStr.trim().match(regex)`: the unanchored search tries position 0
first; since every group of the pattern is optional the pattern succeeds there
on every input, so the search never scans further and never returns `null`. -/
def regexSearch (cs : List Char) : Option DurationMatch :=
  some (matchDuration cs)

/-- `parseTimeToSeconds` from the issue-detail component file. -/
def parseTimeToSeconds (timeStr : String) : Option Nat :=
  match regexSearch (trimChars timeStr.toList) with
  | none => none
  | some m =>
    some (m.weeks * 5 * 8 * 3600 + m.days * 8 * 3600 + m.hours * 3600 + m.minutes * 60)

/-- The validity check in `handleLogTime`: `if (!seconds)` treats both `null`
and `0` as an invalid duration. -/
def handleLogTimeRejects : Option Nat → Bool
  | none => true
  | some n => n == 0

/-- Decimal rendering of a natural number, as JavaScript template literals
render the (non-negative integral) numbers appearing here. -/
def renderNat (n : Nat) : List Char :=
  if n = 0 then ['0'] else ((Nat.digits 10 n).map Nat.digitChar).reverse

/-- `formatHours` from the worklog-summary component (lines 245–249):
`` `${Math.floor(seconds/3600)}h ${Math.floor((seconds%3600)/60)}m` ``. -/
def formatHours (seconds : Nat) : String :=
  ⟨renderNat (seconds / 3600) ++ 'h' :: ' ' :: renderNat (seconds % 3600 / 60) ++ ['m']⟩

/-! ### Basic lemmas about the digit machinery -/

theorem digitVal_digitChar {d : Nat} (h : d < 10) : digitVal (Nat.digitChar d) = d := by
  interval_cases d <;> rfl

theorem isDigit_digitChar {d : Nat} (h : d < 10) : (Nat.digitChar d).isDigit = true := by
  interval_cases d <;> rfl

theorem isSpaceChar_of_isDigit {c : Char} (h : c.isDigit = true) : isSpaceChar c = false := by
  revert h
  unfold isSpaceChar Char.isDigit
  rcases Decidable.em (c = ' ') with h1 | h1 <;>
    rcases Decidable.em (c = '\t') with h2 | h2 <;>
      rcases Decidable.em (c = '\n') with h3 | h3 <;>
        rcases Decidable.em (c = '\r') with h4 | h4 <;>
  first
    | (subst_vars; decide)
    | (intro _
       simp only [beq_eq_false_iff_ne, ne_eq, Bool.or_eq_false_iff]
       exact ⟨⟨⟨h1, h2⟩, h3⟩, h4⟩)

theorem renderNat_ne_nil (n : Nat) : renderNat n ≠ [] := by
  unfold renderNat
  split
  · simp
  · next h =>
    simp only [ne_eq, List.reverse_eq_nil_iff, List.map_eq_nil_iff]
    exact Nat.digits_ne_nil_iff_ne_zero.mpr h

theorem renderNat_digits (n : Nat) : ∀ c ∈ renderNat n, c.isDigit = true := by
  intro c hc
  unfold renderNat at hc
  split at hc
  · simp only [List.mem_singleton] at hc
    subst hc; rfl
  · next h =>
    rw [List.mem_reverse, List.mem_map] at hc
    obtain ⟨d, hd, rfl⟩ := hc
    exact isDigit_digitChar (Nat.digits_lt_base (by norm_num) hd)

/-- Folding the digit characters of `l` (big-endian) on top of accumulator `a`. -/
theorem foldl_digitChars (l : List Nat) (a : Nat) (h : ∀ d ∈ l, d < 10) :
    ((l.map Nat.digitChar).reverse).foldl (fun x c => 10 * x + digitVal c) a
      = a * 10 ^ l.length + Nat.ofDigits 10 l := by
  induction l generalizing a with
  | nil => simp
  | cons d t ih =>
    have hd : d < 10 := h d (List.mem_cons_self d t)
    have ht : ∀ x ∈ t, x < 10 := fun x hx => h x (List.mem_cons_of_mem d hx)
    simp only [List.map_cons, List.reverse_cons, List.foldl_append, List.foldl_cons,
      List.foldl_nil, ih a ht, Nat.ofDigits_cons, List.length_cons]
    rw [digitVal_digitChar hd]
    ring

theorem digitsToNat_renderNat (n : Nat) : digitsToNat (renderNat n) = n := by
  unfold renderNat digitsToNat
  split
  · next h => subst h; rfl
  · rw [foldl_digitChars _ 0 (fun d hd => Nat.digits_lt_base (by norm_num) hd)]
    simp [Nat.ofDigits_digits]

/-! ### Lemmas about the token matcher -/

theorem takeDigits_append (ds rest : List Char) (hds : ∀ c ∈ ds, c.isDigit = true)
    (hrest : ∀ c, rest.head? = some c → c.isDigit = false) :
    takeDigits (ds ++ rest) = (ds, rest) := by
  induction ds with
  | nil =>
    cases rest with
    | nil => rfl
    | cons c cs =>
      have : c.isDigit = false := hrest c rfl
      simp [takeDigits, this]
  | cons d ds' ih =>
    have hd : d.isDigit = true := hds d (List.mem_cons_self d ds')
    have hds' : ∀ c ∈ ds', c.isDigit = true := fun c hc => hds c (List.mem_cons_of_mem d hc)
    simp [takeDigits, hd, ih hds']

theorem matchNumUnit_nil (u : Char) : matchNumUnit u [] = none := rfl

theorem matchNumUnit_cons_not_digit (u c : Char) (rest : List Char) (h : c.isDigit = false) :
    matchNumUnit u (c :: rest) = none := by
  unfold matchNumUnit takeDigits
  simp [h]

theorem matchNumUnit_match (u : Char) (ds rest : List Char) (hne : ds ≠ [])
    (hds : ∀ c ∈ ds, c.isDigit = true) (hu : u.isDigit = false) :
    matchNumUnit u (ds ++ u :: rest) = some (digitsToNat ds, rest) := by
  unfold matchNumUnit
  rw [takeDigits_append ds (u :: rest) hds (fun c hc => by cases hc; exact hu)]
  cases ds with
  | nil => exact absurd rfl hne
  | cons d ds' => simp

theorem matchNumUnit_wrong_unit (u c : Char) (ds rest : List Char) (hne : ds ≠ [])
    (hds : ∀ x ∈ ds, x.isDigit = true) (hc : c.isDigit = false) (hcu : c ≠ u) :
    matchNumUnit u (ds ++ c :: rest) = none := by
  unfold matchNumUnit
  rw [takeDigits_append ds (c :: rest) hds (fun x hx => by cases hx; exact hc)]
  cases ds with
  | nil => exact absurd rfl hne
  | cons d ds' => simp [hcu]

theorem matchNumUnit_no_unit (u : Char) (ds : List Char) (hds : ∀ x ∈ ds, x.isDigit = true) :
    matchNumUnit u ds = none := by
  unfold matchNumUnit
  have := takeDigits_append ds [] hds (by intro c hc; cases hc)
  rw [List.append_nil] at this
  rw [this]
  cases ds <;> simp

/-! ### Trimming is the identity on strings with no outer whitespace -/

theorem dropWhile_not_space (l : List Char)
    (h : ∀ c, l.head? = some c → isSpaceChar c = false) :
    l.dropWhile isSpaceChar = l := by
  cases l with
  | nil => rfl
  | cons c cs => simp [List.dropWhile_cons, h c rfl]

theorem trimChars_eq_self (l : List Char)
    (h1 : ∀ c, l.head? = some c → isSpaceChar c = false)
    (h2 : ∀ c, l.getLast? = some c → isSpaceChar c = false) :
    trimChars l = l := by
  unfold trimChars
  rw [dropWhile_not_space l h1]
  rw [dropWhile_not_space l.reverse (by simpa [List.head?_reverse] using h2)]
  exact l.reverse_reverse

/-! ### Group-level rewrite rules on rendered tokens -/

theorem optGroupWs_match (u : Char) (n : Nat) (rest : List Char) (hu : u.isDigit = false) :
    optGroupWs u (renderNat n ++ u :: rest) = (n, rest.dropWhile isSpaceChar) := by
  unfold optGroupWs
  rw [matchNumUnit_match u (renderNat n) rest (renderNat_ne_nil n) (renderNat_digits n) hu,
    digitsToNat_renderNat]

theorem optGroupWs_skip (u u' : Char) (n : Nat) (rest : List Char) (hu' : u'.isDigit = false)
    (hne : u' ≠ u) :
    optGroupWs u (renderNat n ++ u' :: rest) = (0, renderNat n ++ u' :: rest) := by
  unfold optGroupWs
  rw [matchNumUnit_wrong_unit u u' (renderNat n) rest (renderNat_ne_nil n)
    (renderNat_digits n) hu' hne]

theorem optGroupWs_nil (u : Char) : optGroupWs u [] = (0, []) := rfl

theorem optGroup_match (u : Char) (n : Nat) (rest : List Char) (hu : u.isDigit = false) :
    optGroup u (renderNat n ++ u :: rest) = (n, rest) := by
  unfold optGroup
  rw [matchNumUnit_match u (renderNat n) rest (renderNat_ne_nil n) (renderNat_digits n) hu,
    digitsToNat_renderNat]

theorem optGroup_nil (u : Char) : optGroup u [] = (0, []) := rfl

theorem dropWhile_space_cons (r : List Char) :
    (' ' :: r).dropWhile isSpaceChar = r.dropWhile isSpaceChar := by
  have h : isSpaceChar ' ' = true := rfl
  rw [List.dropWhile_cons, h]
  simp

theorem dropWhile_renderNat (n : Nat) (r : List Char) :
    (renderNat n ++ r).dropWhile isSpaceChar = renderNat n ++ r := by
  apply dropWhile_not_space
  intro c hc
  cases hrn : renderNat n with
  | nil => exact absurd hrn (renderNat_ne_nil n)
  | cons d ds =>
    rw [hrn, List.cons_append, List.head?_cons, Option.some_inj] at hc
    subst hc
    exact isSpaceChar_of_isDigit (renderNat_digits n d (hrn ▸ List.mem_cons_self d ds))

theorem head?_append_renderNat (n : Nat) (r : List Char) (c : Char)
    (hc : (renderNat n ++ r).head? = some c) : c.isDigit = true := by
  cases hrn : renderNat n with
  | nil => exact absurd hrn (renderNat_ne_nil n)
  | cons d ds =>
    rw [hrn, List.cons_append, List.head?_cons, Option.some_inj] at hc
    subst hc
    exact renderNat_digits n d (hrn ▸ List.mem_cons_self d ds)

/-! ### Building the token strings of the specification

`tokenString w d h m` is the string `"<w>w <d>d <h>h <m>m"` with exactly the
tokens whose component is present, single-space separated, in the fixed order
the specification describes. -/

def renderTok (n : Nat) (u : Char) : List Char := renderNat n ++ [u]

def joinSpaces : List (List Char) → List Char
  | [] => []
  | [t] => t
  | t :: ts => t ++ ' ' :: joinSpaces ts

def tokenString (w d h m : Option Nat) : String :=
  ⟨joinSpaces ((w.map (renderTok · 'w')).toList ++ (d.map (renderTok · 'd')).toList
    ++ (h.map (renderTok · 'h')).toList ++ (m.map (renderTok · 'm')).toList)⟩

theorem getLast?_cons_or {α : Type} (a : α) (l : List α) :
    (a :: l).getLast? = l.getLast?.or (some a) := by
  induction l generalizing a with
  | nil => rfl
  | cons b t ih =>
    rw [List.getLast?_cons_cons, ih b]
    cases t.getLast? <;> rfl

theorem optGroupWs_match_w (n : Nat) (rest : List Char) :
    optGroupWs 'w' (renderNat n ++ 'w' :: rest) = (n, rest.dropWhile isSpaceChar) :=
  optGroupWs_match _ _ _ (by decide)

theorem optGroupWs_match_d (n : Nat) (rest : List Char) :
    optGroupWs 'd' (renderNat n ++ 'd' :: rest) = (n, rest.dropWhile isSpaceChar) :=
  optGroupWs_match _ _ _ (by decide)

theorem optGroupWs_match_h (n : Nat) (rest : List Char) :
    optGroupWs 'h' (renderNat n ++ 'h' :: rest) = (n, rest.dropWhile isSpaceChar) :=
  optGroupWs_match _ _ _ (by decide)

theorem optGroup_match_m (n : Nat) (rest : List Char) :
    optGroup 'm' (renderNat n ++ 'm' :: rest) = (n, rest) :=
  optGroup_match _ _ _ (by decide)

theorem optGroupWs_skip_w_d (n : Nat) (rest : List Char) :
    optGroupWs 'w' (renderNat n ++ 'd' :: rest) = (0, renderNat n ++ 'd' :: rest) :=
  optGroupWs_skip _ _ _ _ (by decide) (by decide)

theorem optGroupWs_skip_w_h (n : Nat) (rest : List Char) :
    optGroupWs 'w' (renderNat n ++ 'h' :: rest) = (0, renderNat n ++ 'h' :: rest) :=
  optGroupWs_skip _ _ _ _ (by decide) (by decide)

theorem optGroupWs_skip_w_m (n : Nat) (rest : List Char) :
    optGroupWs 'w' (renderNat n ++ 'm' :: rest) = (0, renderNat n ++ 'm' :: rest) :=
  optGroupWs_skip _ _ _ _ (by decide) (by decide)

theorem optGroupWs_skip_d_h (n : Nat) (rest : List Char) :
    optGroupWs 'd' (renderNat n ++ 'h' :: rest) = (0, renderNat n ++ 'h' :: rest) :=
  optGroupWs_skip _ _ _ _ (by decide) (by decide)

theorem optGroupWs_skip_d_m (n : Nat) (rest : List Char) :
    optGroupWs 'd' (renderNat n ++ 'm' :: rest) = (0, renderNat n ++ 'm' :: rest) :=
  optGroupWs_skip _ _ _ _ (by decide) (by decide)

theorem optGroupWs_skip_h_m (n : Nat) (rest : List Char) :
    optGroupWs 'h' (renderNat n ++ 'm' :: rest) = (0, renderNat n ++ 'm' :: rest) :=
  optGroupWs_skip _ _ _ _ (by decide) (by decide)

theorem some_or_any {α : Type} (a : α) (x : Option α) : (some a).or x = some a := rfl

/-- Parsing any combination of optional, space-separated, fixed-order tokens
recovers the weighted second count of the source's conversion. -/
theorem parse_tokenString (w d h m : Option Nat) :
    parseTimeToSeconds (tokenString w d h m)
      = some ((w.getD 0) * 5 * 8 * 3600 + (d.getD 0) * 8 * 3600
          + (h.getD 0) * 3600 + (m.getD 0) * 60) := by
  rcases w with _ | w <;> rcases d with _ | d <;> rcases h with _ | h <;> rcases m with _ | m <;>
  first
    | decide
    | (simp only [tokenString, Option.map_none', Option.map_some', Option.toList_none,
        Option.toList_some, List.nil_append, List.append_nil, joinSpaces, renderTok,
        List.append_assoc, List.cons_append, List.singleton_append,
        parseTimeToSeconds, String.toList, regexSearch]
       rw [trimChars_eq_self _
         (fun c hc => isSpaceChar_of_isDigit (head?_append_renderNat _ _ c hc))
         (by intro c hc
             simp only [List.getLast?_append, getLast?_cons_or, List.getLast?_nil,
               Option.none_or, some_or_any, Option.some.injEq] at hc
             subst hc
             decide)]
       simp only [matchDuration, optGroupWs_match_w, optGroupWs_match_d, optGroupWs_match_h,
         optGroup_match_m, optGroupWs_skip_w_d, optGroupWs_skip_w_h, optGroupWs_skip_w_m,
         optGroupWs_skip_d_h, optGroupWs_skip_d_m, optGroupWs_skip_h_m,
         optGroupWs_nil, optGroup_nil, dropWhile_space_cons, dropWhile_renderNat,
         List.dropWhile_nil, Option.getD_some, Option.getD_none]
       try ring_nf)

/-! ### The parser consumes nothing exactly when every group fails -/

theorem takeDigits_parts_append (cs : List Char) :
    (takeDigits cs).1 ++ (takeDigits cs).2 = cs := by
  induction cs with
  | nil => rfl
  | cons c t ih =>
    by_cases h : c.isDigit <;> simp [takeDigits, h, ih]

theorem matchNumUnit_shrinks (u : Char) (cs : List Char) (n : Nat) (rest : List Char)
    (h : matchNumUnit u cs = some (n, rest)) : rest.length < cs.length := by
  unfold matchNumUnit at h
  have hparts := takeDigits_parts_append cs
  rcases htd : takeDigits cs with ⟨p1, p2⟩
  rw [htd] at h hparts
  match p1, p2 with
  | [], _ => simp at h
  | _ :: _, [] => simp at h
  | d :: ds, c :: rest' =>
    rcases Decidable.em (c = u) with hcu | hcu
    · subst hcu
      simp at h
      obtain ⟨hv, hr⟩ := h
      have hlen : cs.length = (d :: ds).length + (c :: rest').length := by
        rw [← hparts, List.length_append]
      simp only [List.length_cons] at hlen
      subst hr
      omega
    · simp [hcu] at h

theorem optGroupWs_no_consume (u : Char) (cs : List Char)
    (h : (optGroupWs u cs).2.length = cs.length) : optGroupWs u cs = (0, cs) := by
  unfold optGroupWs at h ⊢
  rcases hm : matchNumUnit u cs with _ | ⟨n, rest⟩
  · rfl
  · rw [hm] at h
    simp only at h
    have h1 : (rest.dropWhile isSpaceChar).length ≤ rest.length :=
      (List.dropWhile_sublist isSpaceChar).length_le
    have h2 : rest.length < cs.length := matchNumUnit_shrinks u cs n rest hm
    omega

theorem optGroupWs_shorter (u : Char) (cs : List Char) :
    (optGroupWs u cs).2.length ≤ cs.length := by
  unfold optGroupWs
  rcases hm : matchNumUnit u cs with _ | ⟨n, rest⟩
  · simp
  · simp only
    have h1 : (rest.dropWhile isSpaceChar).length ≤ rest.length :=
      (List.dropWhile_sublist isSpaceChar).length_le
    have h2 : rest.length < cs.length := matchNumUnit_shrinks u cs n rest hm
    omega

theorem optGroup_no_consume (u : Char) (cs : List Char)
    (h : (optGroup u cs).2.length = cs.length) : optGroup u cs = (0, cs) := by
  unfold optGroup at h ⊢
  rcases hm : matchNumUnit u cs with _ | ⟨n, rest⟩
  · rfl
  · rw [hm] at h
    simp only at h
    have h2 : rest.length < cs.length := matchNumUnit_shrinks u cs n rest hm
    omega

theorem optGroup_shorter (u : Char) (cs : List Char) :
    (optGroup u cs).2.length ≤ cs.length := by
  unfold optGroup
  rcases hm : matchNumUnit u cs with _ | ⟨n, rest⟩
  · simp
  · simp only
    have h2 : rest.length < cs.length := matchNumUnit_shrinks u cs n rest hm
    omega

theorem matchDuration_no_consume (cs : List Char)
    (h : (matchDuration cs).rest = cs) : matchDuration cs = ⟨0, 0, 0, 0, cs⟩ := by
  simp only [matchDuration] at h ⊢
  have lw := optGroupWs_shorter 'w' cs
  have ld := optGroupWs_shorter 'd' (optGroupWs 'w' cs).2
  have lh := optGroupWs_shorter 'h' (optGroupWs 'd' (optGroupWs 'w' cs).2).2
  have lm := optGroup_shorter 'm' (optGroupWs 'h' (optGroupWs 'd' (optGroupWs 'w' cs).2).2).2
  have hlen : ((optGroup 'm' (optGroupWs 'h' (optGroupWs 'd' (optGroupWs 'w' cs).2).2).2).2).length
      = cs.length := by rw [h]
  have ew : optGroupWs 'w' cs = (0, cs) := optGroupWs_no_consume _ _ (by omega)
  have ew2 : (optGroupWs 'w' cs).2 = cs := by rw [ew]
  rw [ew2] at ld lh lm hlen
  have ed : optGroupWs 'd' cs = (0, cs) := optGroupWs_no_consume _ _ (by omega)
  have ed2 : (optGroupWs 'd' cs).2 = cs := by rw [ed]
  rw [ed2] at lh lm hlen
  have eh : optGroupWs 'h' cs = (0, cs) := optGroupWs_no_consume _ _ (by omega)
  have eh2 : (optGroupWs 'h' cs).2 = cs := by rw [eh]
  rw [eh2] at lm hlen
  have em : optGroup 'm' cs = (0, cs) := optGroup_no_consume _ _ (by omega)
  rw [ew2, ed2, eh2, em, ew, ed, eh]

/-! ## Claim theorems about the duration parser -/

/-- C1: `parseTimeToSeconds` accepts tokens `<weeks>w <days>d <hours>h <minutes>m`
(each optional, whitespace-separated, fixed order) and returns
`weeks*5*8*3600 + days*8*3600 + hours*3600 + minutes*60` — the 1 day = 8 hours,
1 week = 5 days convention; in particular `"1h 30m"` parses to 5400 seconds. -/
theorem parseTimeToSeconds_token_form :
    (∀ w d h m : Option Nat,
      parseTimeToSeconds (tokenString w d h m)
        = some ((w.getD 0) * 5 * 8 * 3600 + (d.getD 0) * 8 * 3600
            + (h.getD 0) * 3600 + (m.getD 0) * 60))
    ∧ parseTimeToSeconds "1h 30m" = some 5400 :=
  ⟨parse_tokenString, by decide⟩

/-- C2: on an input where no duration token matches (the regex match consumes
nothing), `parseTimeToSeconds` returns `some 0`, which the caller's
`if (!seconds)` check rejects, and which differs from every successful parse of
a positive duration (all of which the caller accepts). -/
theorem parseTimeToSeconds_unmatched (s : String)
    (hempty : (matchDuration (trimChars s.toList)).rest = trimChars s.toList) :
    parseTimeToSeconds s = some 0
    ∧ handleLogTimeRejects (parseTimeToSeconds s) = true
    ∧ ∀ n : Nat, 0 < n →
        parseTimeToSeconds s ≠ some n ∧ handleLogTimeRejects (some n) = false := by
  have hz := matchDuration_no_consume _ hempty
  have hp : parseTimeToSeconds s = some 0 := by
    unfold parseTimeToSeconds regexSearch
    rw [hz]
    simp
  refine ⟨hp, by rw [hp]; rfl, fun n hn => ⟨?_, ?_⟩⟩
  · rw [hp]
    intro hcontra
    rw [Option.some_inj] at hcontra
    omega
  · simp [handleLogTimeRejects]
    omega

/-- Witness for C2 at the empty string. -/
theorem parseTimeToSeconds_unmatched_witness :
    ((matchDuration (trimChars ("" : String).toList)).rest = trimChars ("" : String).toList)
    ∧ (parseTimeToSeconds "" = some 0
        ∧ handleLogTimeRejects (parseTimeToSeconds "") = true
        ∧ ∀ n : Nat, 0 < n →
            parseTimeToSeconds "" ≠ some n ∧ handleLogTimeRejects (some n) = false) :=
  ⟨by decide, parseTimeToSeconds_unmatched "" (by decide)⟩

/-- C9: `parseTimeToSeconds` never returns `null`: every group of its regex is
optional and the pattern is unanchored, so the pattern matches every string and
the null branch is unreachable; a string with no token at all (e.g. the empty
string) yields the number 0. -/
theorem parseTimeToSeconds_never_null :
    (∀ s : String, ∃ n : Nat, parseTimeToSeconds s = some n)
    ∧ parseTimeToSeconds "" = some 0
    ∧ parseTimeToSeconds "completely tokenless" = some 0 :=
  ⟨fun _ => ⟨_, rfl⟩, by decide, by decide⟩

/-- C10: formatting a second count with `formatHours` and reparsing it recovers
the count rounded down to a whole minute: `parse (format s) = 60 * (s / 60)`. -/
theorem parse_formatHours (s : Nat) :
    parseTimeToSeconds (formatHours s) = some (60 * (s / 60)) := by
  have h := parse_tokenString none none (some (s / 3600)) (some (s % 3600 / 60))
  have e : tokenString none none (some (s / 3600)) (some (s % 3600 / 60)) = formatHours s := by
    simp [tokenString, formatHours, joinSpaces, renderTok]
  rw [e] at h
  rw [h, Option.some_inj]
  simp only [Option.getD_none, Option.getD_some]
  omega

/-! ## Progress percentages

The server computes `progress: Math.round((day.totalSeconds / (8 * 3600)) * 100)`
per day and `weeklyProgress: Math.round((totalSeconds / (40 * 3600)) * 100)` per
week and stores them unclamped in the response; the `WeeklyTimesheet` view
clamps only the rendered bar width with `Math.min(progress, 100)`.  The
JavaScript float arithmetic is modelled over `ℚ`. -/

/-- JavaScript `Math.round` on the non-negative values used here: `⌊q + 1/2⌋`. -/
def jsRound (q : ℚ) : ℤ := ⌊q + 1 / 2⌋

/-- Per-day progress percentage against the fixed 8-hour goal. -/
def dayProgress (totalSeconds : ℤ) : ℤ := jsRound ((totalSeconds : ℚ) / (8 * 3600) * 100)

/-- Weekly progress percentage against the fixed 40-hour goal. -/
def weekProgress (totalSeconds : ℤ) : ℤ := jsRound ((totalSeconds : ℚ) / (40 * 3600) * 100)

/-- `Math.round((seconds / 3600) * 100) / 100`: hours rounded to two decimals. -/
def roundHours (totalSeconds : ℤ) : ℚ := (jsRound ((totalSeconds : ℚ) / 3600 * 100) : ℚ) / 100

/-- The view's rendered bar width `Math.min(progress, 100)`. -/
def barWidth (progress : ℤ) : ℤ := min progress 100

/-! ## Server time model

A JS `Date` holds an absolute millisecond timestamp; the local timezone is a
fixed offset of `off` minutes ahead of UTC (DST transitions inside a single
week are not modelled).  `toISOString().split('T')[0]` renders the UTC calendar
date, which we represent by its day index `t / 86400000` (floor division);
two timestamps render the same date string iff they have the same UTC day
index.  `getDay()` is the weekday of the local time with 0 = Sunday; day index
0 (1970-01-01) was a Thursday, weekday 4. -/

def msPerDay : Int := 86400000

def msPerMin : Int := 60000

/-- The local clock reading (as a timestamp) of absolute instant `t`. -/
def localMs (off t : Int) : Int := t + off * msPerMin

/-- UTC day index: models the `toISOString().split('T')[0]` date key. -/
def utcDayIndex (t : Int) : Int := t / msPerDay

/-- Local calendar day index of absolute instant `t`. -/
def localDayIndex (off t : Int) : Int := localMs off t / msPerDay

/-- JS `getDay()` (0 = Sunday … 6 = Saturday) of the local time of `t`. -/
def localWeekday (off t : Int) : Int := (localDayIndex off t + 4) % 7

/-- `setHours(0,0,0,0)`: the absolute instant of local midnight of `t`'s local day. -/
def setMidnight (off t : Int) : Int := t - localMs off t % msPerDay

/-- `startDate` of the current Monday-to-Sunday week: `setDate(getDate() -
daysToMonday)` followed by `setHours(0,0,0,0)`. -/
def weekStartFor (off now : Int) : Int :=
  let currentDay := localWeekday off now
  let daysToMonday := if currentDay = 0 then 6 else currentDay - 1
  setMidnight off (now - daysToMonday * msPerDay)

/-- `endDate`: `setDate(getDate() + daysToSunday)` then `setHours(23,59,59,999)`. -/
def weekEndFor (off now : Int) : Int :=
  let currentDay := localWeekday off now
  let daysToSunday := if currentDay = 0 then 0 else 7 - currentDay
  setMidnight off (now + daysToSunday * msPerDay) + (msPerDay - 1)

/-! ## The `/api/worklogs/daily` aggregation -/

structure Worklog where
  authorId : String
  started : Int
  timeSpentSeconds : Int
deriving DecidableEq

instance exceptDecEq {α β : Type} [DecidableEq α] [DecidableEq β] :
    DecidableEq (Except α β) := fun x y =>
  match x, y with
  | .error a, .error b =>
    if h : a = b then .isTrue (by rw [h]) else .isFalse (fun hc => h (Except.error.inj hc))
  | .error _, .ok _ => .isFalse (fun hc => Except.noConfusion hc)
  | .ok _, .error _ => .isFalse (fun hc => Except.noConfusion hc)
  | .ok a, .ok b =>
    if h : a = b then .isTrue (by rw [h]) else .isFalse (fun hc => h (Except.ok.inj hc))

structure IssueData where
  key : String
  summary : String
  /-- Result of the per-issue `GET /issue/{key}/worklog` upstream call; a
  failure is caught and logged and the issue is skipped. -/
  fetched : Except String (List Worklog)
deriving DecidableEq

structure WorklogEntry where
  issueKey : String
  summary : String
  timeSpentSeconds : Int
  started : Int
deriving DecidableEq

structure DayBucket where
  /-- UTC day index standing for the `yyyy-mm-dd` object key. -/
  date : Int
  /-- `getDay()` index into `dayNames` (0 = Domingo … 6 = Sábado). -/
  dayName : Int
  totalSeconds : Int
  worklogs : List WorklogEntry
deriving DecidableEq

/-- The seven `dailyTotals` entries created for `startDate + i` days,
`i = 0 … 6`, keyed by their `toISOString` date. -/
def initDailyTotals (off start : Int) : List DayBucket :=
  (List.range 7).map fun i : Nat =>
    { date := utcDayIndex (start + (i : Int) * msPerDay)
      dayName := localWeekday off (start + (i : Int) * msPerDay)
      totalSeconds := 0
      worklogs := [] }

/-- `dailyTotals[dateStr].totalSeconds += …; dailyTotals[dateStr].worklogs.push(…)`. -/
def addWorklog (bs : List DayBucket) (k : Int) (e : WorklogEntry) : List DayBucket :=
  bs.map fun b =>
    if b.date = k then
      { b with totalSeconds := b.totalSeconds + e.timeSpentSeconds
               worklogs := b.worklogs ++ [e] }
    else b

/-- Processing of one worklog entry: author filter, date-range filter, then
`if (dailyTotals[dateStr])` presence check; when all pass, the entry's seconds
go to that bucket and to the running weekly total. -/
def processWorklog (accountId : String) (start endD : Int) (key summary : String)
    (acc : List DayBucket × Int) (w : Worklog) : List DayBucket × Int :=
  if w.authorId = accountId ∧ start ≤ w.started ∧ w.started ≤ endD
      ∧ (acc.1.any fun b => b.date = utcDayIndex w.started) then
    (addWorklog acc.1 (utcDayIndex w.started) ⟨key, summary, w.timeSpentSeconds, w.started⟩,
      acc.2 + w.timeSpentSeconds)
  else acc

def processIssue (accountId : String) (start endD : Int)
    (acc : List DayBucket × Int) (iss : IssueData) : List DayBucket × Int :=
  match iss.fetched with
  | .error _ => acc
  | .ok ws => ws.foldl (processWorklog accountId start endD iss.key iss.summary) acc

structure DailyDay where
  date : Int
  dayName : Int
  totalSeconds : Int
  worklogs : List WorklogEntry
  totalHours : ℚ
  goalHours : Int
  progress : Int
deriving DecidableEq

structure DailyResponse where
  weekStart : Int
  weekEnd : Int
  dailyData : List DailyDay
  totalSeconds : Int
  totalHours : ℚ
  weeklyGoalHours : Int
  weeklyProgress : Int
deriving DecidableEq

/-- The `/api/worklogs/daily` route handler, as a function of the upstream
results (current user id and issue search result with per-issue worklog
fetches). -/
def worklogsDailyHandler (off now : Int) (accountId : String)
    (issues : List IssueData) : DailyResponse :=
  let start := weekStartFor off now
  let endD := weekEndFor off now
  let r := issues.foldl (processIssue accountId start endD) (initDailyTotals off start, 0)
  { weekStart := utcDayIndex start
    weekEnd := utcDayIndex endD
    dailyData := r.1.map fun b =>
      { date := b.date, dayName := b.dayName, totalSeconds := b.totalSeconds
        worklogs := b.worklogs, totalHours := roundHours b.totalSeconds
        goalHours := 8, progress := dayProgress b.totalSeconds }
    totalSeconds := r.2
    totalHours := roundHours r.2
    weeklyGoalHours := 40
    weeklyProgress := weekProgress r.2 }

/-! ### Bucket bookkeeping lemmas -/

def sumSeconds (bs : List DayBucket) : Int := (bs.map (fun b => b.totalSeconds)).sum

theorem addWorklog_dates (bs : List DayBucket) (k : Int) (e : WorklogEntry) :
    (addWorklog bs k e).map (fun b => b.date) = bs.map (fun b => b.date) := by
  unfold addWorklog
  rw [List.map_map]
  refine List.map_congr_left ?_
  intro b _
  by_cases h : b.date = k <;> simp [h]

theorem addWorklog_id (bs : List DayBucket) (k : Int) (e : WorklogEntry)
    (h : ∀ b ∈ bs, b.date ≠ k) : addWorklog bs k e = bs := by
  unfold addWorklog
  induction bs with
  | nil => rfl
  | cons b t ih =>
    rw [List.map_cons, if_neg (h b (List.mem_cons_self b t))]
    rw [ih (fun x hx => h x (List.mem_cons_of_mem b hx))]

theorem addWorklog_sum (bs : List DayBucket) (k : Int) (e : WorklogEntry)
    (hnd : (bs.map (fun b => b.date)).Nodup)
    (hany : (bs.any fun b => b.date = k) = true) :
    sumSeconds (addWorklog bs k e) = sumSeconds bs + e.timeSpentSeconds := by
  induction bs with
  | nil => simp at hany
  | cons b t ih =>
    rw [List.map_cons, List.nodup_cons] at hnd
    by_cases hb : b.date = k
    · have ht : addWorklog t k e = t := by
        refine addWorklog_id t k e (fun x hx hxk => hnd.1 ?_)
        rw [hb, ← hxk]
        exact List.mem_map_of_mem _ hx
      show sumSeconds ((b :: t).map _) = _
      rw [List.map_cons, if_pos hb]
      have ht' : t.map (fun b => if b.date = k then
          { b with totalSeconds := b.totalSeconds + e.timeSpentSeconds
                   worklogs := b.worklogs ++ [e] } else b) = t := ht
      rw [ht']
      simp only [sumSeconds, List.map_cons, List.sum_cons]
      ring
    · have hany' : (t.any fun b => b.date = k) = true := by
        rw [List.any_cons] at hany
        simpa [hb] using hany
      show sumSeconds ((b :: t).map _) = _
      rw [List.map_cons, if_neg hb]
      have := ih hnd.2 hany'
      unfold addWorklog at this
      simp only [sumSeconds, List.map_cons, List.sum_cons] at this ⊢
      omega

theorem processWorklog_dates (a : String) (s e : Int) (k su : String)
    (acc : List DayBucket × Int) (w : Worklog) :
    ((processWorklog a s e k su acc w).1).map (fun b => b.date)
      = acc.1.map (fun b => b.date) := by
  unfold processWorklog
  split
  · exact addWorklog_dates _ _ _
  · rfl

theorem processWorklog_sum (a : String) (s e : Int) (k su : String)
    (acc : List DayBucket × Int) (w : Worklog)
    (hnd : (acc.1.map (fun b => b.date)).Nodup)
    (hsum : sumSeconds acc.1 = acc.2) :
    sumSeconds (processWorklog a s e k su acc w).1 = (processWorklog a s e k su acc w).2 := by
  unfold processWorklog
  split
  · next hcond =>
    show sumSeconds (addWorklog _ _ _) = _
    rw [addWorklog_sum _ _ _ hnd hcond.2.2.2, hsum]
  · exact hsum

theorem foldl_worklogs_dates (a : String) (s e : Int) (k su : String)
    (ws : List Worklog) (acc : List DayBucket × Int) :
    ((ws.foldl (processWorklog a s e k su) acc).1).map (fun b => b.date)
      = acc.1.map (fun b => b.date) := by
  induction ws generalizing acc with
  | nil => rfl
  | cons w t ih => rw [List.foldl_cons, ih, processWorklog_dates]

theorem foldl_worklogs_sum (a : String) (s e : Int) (k su : String)
    (ws : List Worklog) (acc : List DayBucket × Int)
    (hnd : (acc.1.map (fun b => b.date)).Nodup)
    (hsum : sumSeconds acc.1 = acc.2) :
    sumSeconds ((ws.foldl (processWorklog a s e k su) acc).1)
      = (ws.foldl (processWorklog a s e k su) acc).2 := by
  induction ws generalizing acc with
  | nil => exact hsum
  | cons w t ih =>
    rw [List.foldl_cons]
    exact ih _ (by rw [processWorklog_dates]; exact hnd)
      (processWorklog_sum a s e k su acc w hnd hsum)

theorem processIssue_dates (a : String) (s e : Int)
    (acc : List DayBucket × Int) (iss : IssueData) :
    ((processIssue a s e acc iss).1).map (fun b => b.date) = acc.1.map (fun b => b.date) := by
  unfold processIssue
  rcases iss.fetched with _ | ws
  · rfl
  · exact foldl_worklogs_dates _ _ _ _ _ _ _

theorem processIssue_sum (a : String) (s e : Int)
    (acc : List DayBucket × Int) (iss : IssueData)
    (hnd : (acc.1.map (fun b => b.date)).Nodup)
    (hsum : sumSeconds acc.1 = acc.2) :
    sumSeconds (processIssue a s e acc iss).1 = (processIssue a s e acc iss).2 := by
  unfold processIssue
  rcases iss.fetched with _ | ws
  · exact hsum
  · exact foldl_worklogs_sum _ _ _ _ _ _ _ hnd hsum

theorem foldl_issues_dates (a : String) (s e : Int)
    (issues : List IssueData) (acc : List DayBucket × Int) :
    ((issues.foldl (processIssue a s e) acc).1).map (fun b => b.date)
      = acc.1.map (fun b => b.date) := by
  induction issues generalizing acc with
  | nil => rfl
  | cons iss t ih => rw [List.foldl_cons, ih, processIssue_dates]

theorem foldl_issues_sum (a : String) (s e : Int)
    (issues : List IssueData) (acc : List DayBucket × Int)
    (hnd : (acc.1.map (fun b => b.date)).Nodup)
    (hsum : sumSeconds acc.1 = acc.2) :
    sumSeconds ((issues.foldl (processIssue a s e) acc).1)
      = (issues.foldl (processIssue a s e) acc).2 := by
  induction issues generalizing acc with
  | nil => exact hsum
  | cons iss t ih =>
    rw [List.foldl_cons]
    exact ih _ (by rw [processIssue_dates]; exact hnd)
      (processIssue_sum a s e acc iss hnd hsum)

theorem initDailyTotals_dates (off start : Int) :
    (initDailyTotals off start).map (fun b => b.date)
      = (List.range 7).map (fun i : Nat => utcDayIndex start + (i : Int)) := by
  unfold initDailyTotals
  rw [List.map_map]
  refine List.map_congr_left ?_
  intro i _
  show utcDayIndex (start + (i : Int) * msPerDay) = utcDayIndex start + (i : Int)
  unfold utcDayIndex msPerDay
  omega

theorem initDailyTotals_nodup (off start : Int) :
    ((initDailyTotals off start).map (fun b => b.date)).Nodup := by
  rw [initDailyTotals_dates]
  refine List.Nodup.map ?_ (List.nodup_range 7)
  intro i j hij
  simp only [add_right_inj, Int.natCast_inj] at hij
  exact hij

theorem initDailyTotals_sum (off start : Int) : sumSeconds (initDailyTotals off start) = 0 := by
  unfold sumSeconds initDailyTotals
  rw [List.map_map]
  rfl

/-! ### Per-bucket characterization of the daily aggregation -/

/-- The filter an individual worklog entry must pass to be counted toward the
bucket with date key `d`: author match, week range, and `toISOString` date. -/
def entryCounted (a : String) (s e d : Int) (w : Worklog) : Bool :=
  decide (w.authorId = a) && decide (s ≤ w.started) && decide (w.started ≤ e)
    && decide (utcDayIndex w.started = d)

def issueSecondsOn (a : String) (s e d : Int) (iss : IssueData) : Int :=
  match iss.fetched with
  | .error _ => 0
  | .ok ws => ((ws.filter (entryCounted a s e d)).map (fun w => w.timeSpentSeconds)).sum

def weekSecondsOn (a : String) (s e d : Int) (issues : List IssueData) : Int :=
  (issues.map (issueSecondsOn a s e d)).sum

theorem processWorklog_get? (a : String) (s e : Int) (k su : String)
    (acc : List DayBucket × Int) (w : Worklog) (i : Nat) (b : DayBucket)
    (hget : acc.1.get? i = some b) :
    ∃ b', (processWorklog a s e k su acc w).1.get? i = some b'
      ∧ b'.date = b.date
      ∧ b'.totalSeconds = b.totalSeconds
          + (if entryCounted a s e b.date w then w.timeSpentSeconds else 0) := by
  unfold processWorklog
  split
  · next hcond =>
    refine ⟨if b.date = utcDayIndex w.started then
        { b with totalSeconds := b.totalSeconds + w.timeSpentSeconds
                 worklogs := b.worklogs ++ [⟨k, su, w.timeSpentSeconds, w.started⟩] }
      else b, ?_, ?_, ?_⟩
    · show (addWorklog acc.1 (utcDayIndex w.started) _).get? i = _
      unfold addWorklog
      rw [List.get?_map, hget]
      rfl
    · by_cases hb : b.date = utcDayIndex w.started <;> simp [hb]
    · by_cases hb : b.date = utcDayIndex w.started
      · have hcount : entryCounted a s e b.date w = true := by
          unfold entryCounted
          simp only [Bool.and_eq_true, decide_eq_true_eq]
          exact ⟨⟨⟨hcond.1, hcond.2.1⟩, hcond.2.2.1⟩, hb.symm⟩
        rw [if_pos hb, if_pos hcount]
      · have hcount : entryCounted a s e b.date w = false := by
          unfold entryCounted
          have hd : decide (utcDayIndex w.started = b.date) = false :=
            decide_eq_false (fun hcontra => hb hcontra.symm)
          simp [hd]
        rw [if_neg hb, if_neg (by simp [hcount])]
        omega
  · next hcond =>
    refine ⟨b, hget, rfl, ?_⟩
    have hcount : entryCounted a s e b.date w = false := by
      by_contra hne
      rw [Bool.not_eq_false] at hne
      unfold entryCounted at hne
      simp only [Bool.and_eq_true, decide_eq_true_eq] at hne
      obtain ⟨⟨⟨h1, h2⟩, h3⟩, h4⟩ := hne
      refine hcond ⟨h1, h2, h3, ?_⟩
      rw [List.any_eq_true]
      exact ⟨b, List.get?_mem hget, by simp [h4]⟩
    rw [if_neg (by simp [hcount])]
    omega

theorem foldl_worklogs_get? (a : String) (s e : Int) (k su : String)
    (ws : List Worklog) (acc : List DayBucket × Int) (i : Nat) (b : DayBucket)
    (hget : acc.1.get? i = some b) :
    ∃ b', ((ws.foldl (processWorklog a s e k su) acc).1).get? i = some b'
      ∧ b'.date = b.date
      ∧ b'.totalSeconds = b.totalSeconds
          + ((ws.filter (entryCounted a s e b.date)).map (fun w => w.timeSpentSeconds)).sum := by
  induction ws generalizing acc b with
  | nil => exact ⟨b, hget, rfl, by simp⟩
  | cons w t ih =>
    rw [List.foldl_cons]
    obtain ⟨b1, hget1, hdate1, htot1⟩ := processWorklog_get? a s e k su acc w i b hget
    obtain ⟨b', hget', hdate', htot'⟩ := ih _ _ hget1
    refine ⟨b', hget', by rw [hdate', hdate1], ?_⟩
    rw [htot', htot1, hdate1, List.filter_cons]
    by_cases hc : entryCounted a s e b.date w = true
    · rw [if_pos hc, if_pos hc]
      simp only [List.map_cons, List.sum_cons]
      ring
    · rw [if_neg hc, if_neg hc]
      ring

theorem processIssue_get? (a : String) (s e : Int)
    (acc : List DayBucket × Int) (iss : IssueData) (i : Nat) (b : DayBucket)
    (hget : acc.1.get? i = some b) :
    ∃ b', ((processIssue a s e acc iss).1).get? i = some b'
      ∧ b'.date = b.date
      ∧ b'.totalSeconds = b.totalSeconds + issueSecondsOn a s e b.date iss := by
  unfold processIssue issueSecondsOn
  rcases iss.fetched with _ | ws
  · exact ⟨b, hget, rfl, by simp⟩
  · exact foldl_worklogs_get? a s e iss.key iss.summary ws acc i b hget

theorem foldl_issues_get? (a : String) (s e : Int)
    (issues : List IssueData) (acc : List DayBucket × Int) (i : Nat) (b : DayBucket)
    (hget : acc.1.get? i = some b) :
    ∃ b', ((issues.foldl (processIssue a s e) acc).1).get? i = some b'
      ∧ b'.date = b.date
      ∧ b'.totalSeconds = b.totalSeconds + weekSecondsOn a s e b.date issues := by
  induction issues generalizing acc b with
  | nil => exact ⟨b, hget, rfl, by simp [weekSecondsOn]⟩
  | cons iss t ih =>
    rw [List.foldl_cons]
    obtain ⟨b1, hget1, hdate1, htot1⟩ := processIssue_get? a s e acc iss i b hget
    obtain ⟨b', hget', hdate', htot'⟩ := ih _ _ hget1
    refine ⟨b', hget', by rw [hdate', hdate1], ?_⟩
    rw [htot', htot1, hdate1]
    unfold weekSecondsOn
    simp only [List.map_cons, List.sum_cons]
    ring

theorem initDailyTotals_get? (off start : Int) (i : Nat) (hi : i < 7) :
    (initDailyTotals off start).get? i
      = some { date := utcDayIndex (start + (i : Int) * msPerDay)
               dayName := localWeekday off (start + (i : Int) * msPerDay)
               totalSeconds := 0
               worklogs := [] } := by
  unfold initDailyTotals
  rw [List.get?_map, List.get?_range hi]
  rfl

theorem addWorklog_names (bs : List DayBucket) (k : Int) (e : WorklogEntry) :
    (addWorklog bs k e).map (fun b => b.dayName) = bs.map (fun b => b.dayName) := by
  unfold addWorklog
  rw [List.map_map]
  refine List.map_congr_left ?_
  intro b _
  by_cases h : b.date = k <;> simp [h]

theorem processWorklog_names (a : String) (s e : Int) (k su : String)
    (acc : List DayBucket × Int) (w : Worklog) :
    ((processWorklog a s e k su acc w).1).map (fun b => b.dayName)
      = acc.1.map (fun b => b.dayName) := by
  unfold processWorklog
  split
  · exact addWorklog_names _ _ _
  · rfl

theorem foldl_worklogs_names (a : String) (s e : Int) (k su : String)
    (ws : List Worklog) (acc : List DayBucket × Int) :
    ((ws.foldl (processWorklog a s e k su) acc).1).map (fun b => b.dayName)
      = acc.1.map (fun b => b.dayName) := by
  induction ws generalizing acc with
  | nil => rfl
  | cons w t ih => rw [List.foldl_cons, ih, processWorklog_names]

theorem processIssue_names (a : String) (s e : Int)
    (acc : List DayBucket × Int) (iss : IssueData) :
    ((processIssue a s e acc iss).1).map (fun b => b.dayName)
      = acc.1.map (fun b => b.dayName) := by
  unfold processIssue
  rcases iss.fetched with _ | ws
  · rfl
  · exact foldl_worklogs_names _ _ _ _ _ _ _

theorem foldl_issues_names (a : String) (s e : Int)
    (issues : List IssueData) (acc : List DayBucket × Int) :
    ((issues.foldl (processIssue a s e) acc).1).map (fun b => b.dayName)
      = acc.1.map (fun b => b.dayName) := by
  induction issues generalizing acc with
  | nil => rfl
  | cons iss t ih => rw [List.foldl_cons, ih, processIssue_names]

/-! ## Claim theorems about the daily aggregation -/

/-- C5: in every daily response the top-level `totalSeconds` equals the sum of
the seven buckets' `totalSeconds`: every counted entry lands in exactly one
bucket and entries outside every bucket contribute to neither side. -/
theorem daily_total_eq_bucket_sum (off now : Int) (accountId : String)
    (issues : List IssueData) :
    (worklogsDailyHandler off now accountId issues).totalSeconds
      = ((worklogsDailyHandler off now accountId issues).dailyData.map
          (fun b => b.totalSeconds)).sum := by
  unfold worklogsDailyHandler
  simp only [List.map_map]
  exact (foldl_issues_sum accountId (weekStartFor off now) (weekEndFor off now) issues
    (initDailyTotals off (weekStartFor off now), 0)
    (initDailyTotals_nodup off (weekStartFor off now))
    (initDailyTotals_sum off (weekStartFor off now))).symm

/-- C4 (amended): the daily endpoint builds exactly 7 buckets for the local
Monday-to-Sunday week (the week start is the local Monday and the week end is
six local days later), labelled with local weekday names, but KEYED by the
`toISOString` (UTC) calendar date of each local midnight; an entry of the
current user whose timestamp is inside the week range is added to the bucket
whose key equals the entry's UTC calendar day, and an in-range entry whose UTC
day matches no key is dropped.  Only when the UTC offset is zero does the key
coincide with the local calendar day. -/
theorem daily_buckets_utc_keyed (off now : Int) (accountId : String)
    (issues : List IssueData) (i : Fin 7) :
    localWeekday off (weekStartFor off now) = 1
    ∧ localDayIndex off (weekEndFor off now) = localDayIndex off (weekStartFor off now) + 6
    ∧ (worklogsDailyHandler off now accountId issues).dailyData.length = 7
    ∧ (∃ b, (worklogsDailyHandler off now accountId issues).dailyData.get? (i : Nat) = some b
        ∧ b.date = utcDayIndex (weekStartFor off now + ((i : Nat) : Int) * msPerDay)
        ∧ b.dayName = localWeekday off (weekStartFor off now + ((i : Nat) : Int) * msPerDay)
        ∧ b.totalSeconds = weekSecondsOn accountId (weekStartFor off now) (weekEndFor off now)
            b.date issues)
    ∧ (off = 0 → ∀ t : Int, utcDayIndex t = localDayIndex off t) := by
  refine ⟨?_, ?_, ?_, ?_, ?_⟩
  · simp only [localWeekday, localDayIndex, weekStartFor, setMidnight, localMs,
      msPerDay, msPerMin]
    split_ifs <;> omega
  · simp only [localDayIndex, weekEndFor, weekStartFor, localWeekday, setMidnight,
      localMs, msPerDay, msPerMin]
    split_ifs <;> omega
  · unfold worklogsDailyHandler
    simp only [List.length_map]
    have h := congrArg List.length (foldl_issues_dates accountId (weekStartFor off now)
      (weekEndFor off now) issues (initDailyTotals off (weekStartFor off now), 0))
    simp only [List.length_map] at h
    rw [h]
    unfold initDailyTotals
    simp
  · have hinit := initDailyTotals_get? off (weekStartFor off now) (i : Nat) i.isLt
    obtain ⟨b', hget', hdate', htot'⟩ := foldl_issues_get? accountId (weekStartFor off now)
      (weekEndFor off now) issues (initDailyTotals off (weekStartFor off now), 0)
      (i : Nat) _ hinit
    have hname : b'.dayName
        = localWeekday off (weekStartFor off now + ((i : Nat) : Int) * msPerDay) := by
      have hmap := foldl_issues_names accountId (weekStartFor off now) (weekEndFor off now)
        issues (initDailyTotals off (weekStartFor off now), 0)
      have h2 := congrArg (fun L => L.get? (i : Nat)) hmap
      simp only [List.get?_map] at h2
      rw [hget', hinit] at h2
      simpa using h2
    refine ⟨{ date := b'.date, dayName := b'.dayName, totalSeconds := b'.totalSeconds
              worklogs := b'.worklogs, totalHours := roundHours b'.totalSeconds
              goalHours := 8, progress := dayProgress b'.totalSeconds }, ?_, ?_, ?_, ?_⟩
    · simp only [worklogsDailyHandler, List.get?_map]
      rw [hget']
      rfl
    · simpa using hdate'
    · simpa using hname
    · simp only [htot', hdate']
      omega
  · intro hoff t
    subst hoff
    unfold utcDayIndex localDayIndex localMs
    norm_num

/-- C4 counterexample to the claim as stated: with a UTC offset of +180
minutes, a worklog started at 417600000 ms (local Monday 1970-01-05 23:00,
local day index 4, weekday Lunes) is placed in the SECOND bucket (key 4,
labelled Martes) rather than in the first bucket, which is the one
representing the entry's local calendar day (local day 4, labelled Lunes and
keyed 3, the UTC date of the local Monday midnight). -/
theorem daily_buckets_not_local_day :
    ((worklogsDailyHandler 180 378000000 "u"
        [⟨"ISS-1", "s", .ok [⟨"u", 417600000, 3600⟩]⟩]).dailyData.map
      (fun b => (b.date, b.dayName, b.totalSeconds)))
      = [(3, 1, 0), (4, 2, 3600), (5, 3, 0), (6, 4, 0), (7, 5, 0), (8, 6, 0), (9, 0, 0)]
    ∧ localDayIndex 180 417600000 = 4
    ∧ localWeekday 180 417600000 = 1
    ∧ localDayIndex 180 (weekStartFor 180 378000000) = 4
    ∧ weekStartFor 180 378000000 ≤ 417600000
    ∧ 417600000 ≤ weekEndFor 180 378000000 := by
  decide

/-- C3: per-day progress is `round(100 * totalSeconds / (8*3600))` and weekly
progress is `round(100 * totalSeconds / (40*3600))`; the stored response values
(`progress`, `weeklyProgress`) are exactly these unclamped roundings — they can
exceed 100 — while the view clamps only the rendered bar width at 100; four
hours against the 8-hour goal gives 50. -/
theorem progress_round_formula :
    (∀ ts : ℤ, dayProgress ts = jsRound (100 * (ts : ℚ) / (8 * 3600))
      ∧ weekProgress ts = jsRound (100 * (ts : ℚ) / (40 * 3600)))
    ∧ dayProgress 14400 = 50
    ∧ (∃ ts : ℤ, 100 < dayProgress ts ∧ 100 < weekProgress ts)
    ∧ (∀ off now accountId issues,
        (∀ b ∈ (worklogsDailyHandler off now accountId issues).dailyData,
          b.progress = dayProgress b.totalSeconds)
        ∧ (worklogsDailyHandler off now accountId issues).weeklyProgress
            = weekProgress (worklogsDailyHandler off now accountId issues).totalSeconds)
    ∧ (∀ p : ℤ, (100 < p → barWidth p = 100 ∧ barWidth p < p) ∧ (p ≤ 100 → barWidth p = p)) := by
  refine ⟨?_, ?_, ?_, ?_, ?_⟩
  · intro ts
    constructor
    · unfold dayProgress jsRound
      congr 1
      ring
    · unfold weekProgress jsRound
      congr 1
      ring
  · unfold dayProgress jsRound
    norm_num [Int.floor_eq_iff]
  · refine ⟨288000, ?_, ?_⟩
    · have h : dayProgress 288000 = 1000 := by
        unfold dayProgress jsRound
        norm_num [Int.floor_eq_iff]
      omega
    · have h : weekProgress 288000 = 200 := by
        unfold weekProgress jsRound
        norm_num [Int.floor_eq_iff]
      omega
  · intro off now accountId issues
    constructor
    · intro b hb
      simp only [worklogsDailyHandler, List.mem_map] at hb
      obtain ⟨b0, _, rfl⟩ := hb
      rfl
    · rfl
  · intro p
    constructor
    · intro hp
      unfold barWidth
      omega
    · intro hp
      unfold barWidth
      omega

/-- Witness for C3's conditional parts at concrete inputs. -/
theorem progress_round_formula_witness :
    dayProgress 14400 = 50 ∧ (100 < (250 : ℤ) ∧ barWidth 250 = 100 ∧ barWidth 250 < 250) :=
  ⟨progress_round_formula.2.1,
    by decide,
    ((progress_round_formula.2.2.2.2 250).1 (by decide)).1,
    ((progress_round_formula.2.2.2.2 250).1 (by decide)).2⟩

/-! ## The `/api/worklogs` period ranges

The summary route computes a `[startDate, endDate]` window from `new Date()`
before filtering entries, with three branches on the `period` query parameter.
The `month` branch uses `setDate(1)` / `setMonth(getMonth()+1, 0)`, so the
model needs the proleptic-Gregorian calendar JS `Date` implements.  `now` is
given by its local civil components (`getFullYear`/`getMonth`/`getDate` and
the millisecond of the local day), from which the absolute timestamp is
derived. -/

/-- Proleptic-Gregorian leap year (JS `Date` rules). -/
def isLeapYear (y : Int) : Bool := (y % 4 == 0 && y % 100 != 0) || y % 400 == 0

/-- Length of 0-based month `m` of year `y`. -/
def daysInMonth (y m : Int) : Int :=
  if m = 1 then (if isLeapYear y then 29 else 28)
  else if m = 3 ∨ m = 5 ∨ m = 8 ∨ m = 10 then 30
  else 31

/-- Days from January 1 of year `y` to the first of 0-based month `m ≤ 11`. -/
def daysBeforeMonth (y m : Int) : Int :=
  (if m ≤ 0 then 0 else if m = 1 then 31 else if m = 2 then 59
   else if m = 3 then 90 else if m = 4 then 120 else if m = 5 then 151
   else if m = 6 then 181 else if m = 7 then 212 else if m = 8 then 243
   else if m = 9 then 273 else if m = 10 then 304 else 334)
  + (if 2 ≤ m ∧ isLeapYear y then 1 else 0)

/-- Day number of January 1 of year `y`, counted from year 0. -/
def jan1DayNumber (y : Int) : Int :=
  365 * y + (y - 1) / 4 - (y - 1) / 100 + (y - 1) / 400

/-- Epoch day index (0 = 1970-01-01) of the first of month `m` of year `y`,
with JS-style month normalization (month 12 is January of `y + 1`). -/
def monthStartDay (y m : Int) : Int :=
  jan1DayNumber (y + m / 12) + daysBeforeMonth (y + m / 12) (m % 12) - jan1DayNumber 1970

/-- `now` described by its local civil components. -/
structure CivilNow where
  year : Int
  /-- 0-based month, as `getMonth()`. -/
  month : Int
  /-- 1-based day of month, as `getDate()`. -/
  day : Int
  msOfDay : Int
deriving DecidableEq

/-- The absolute timestamp of the civil local datetime. -/
def civilToMs (off : Int) (c : CivilNow) : Int :=
  (monthStartDay c.year c.month + (c.day - 1)) * msPerDay + c.msOfDay - off * msPerMin

/-- The `[startDate, endDate]` window of `/api/worklogs` for a `period` value:
`week` is the local Monday-to-Sunday week; `month` is `setDate(1)` midnight
through `setMonth(getMonth()+1, 0)` 23:59:59.999; anything else is the code's
`else` branch, `now` minus 365 days (clock time preserved) through the end of
the current local day. -/
def worklogsRange (off : Int) (c : CivilNow) (period : String) : Int × Int :=
  let now := civilToMs off c
  if period = "week" then
    (weekStartFor off now, weekEndFor off now)
  else if period = "month" then
    (setMidnight off (now - (c.day - 1) * msPerDay),
      (monthStartDay c.year (c.month + 1) - 1) * msPerDay + (msPerDay - 1) - off * msPerMin)
  else
    (now - 365 * msPerDay, setMidnight off now + (msPerDay - 1))

/-- Modelled from the spec: weeks run Monday through Sunday, and epoch day 4
(1970-01-05) was a Monday, so two local calendar days belong to the same week
iff `(d - 4) / 7` agree. -/
def specMondayWeek (d : Int) : Int := (d - 4) / 7

theorem isLeapYear_iff (y : Int) :
    isLeapYear y = true ↔ ((y % 4 = 0 ∧ y % 100 ≠ 0) ∨ y % 400 = 0) := by
  unfold isLeapYear
  simp [Bool.or_eq_true, Bool.and_eq_true, beq_iff_eq, bne_iff_ne]

theorem daysInMonth_pos (y m : Int) : 1 ≤ daysInMonth y m := by
  unfold daysInMonth
  split_ifs <;> omega

theorem monthStartDay_succ (y m : Int) (h0 : 0 ≤ m) (h1 : m < 12) :
    monthStartDay y (m + 1) = monthStartDay y m + daysInMonth y m := by
  rcases Decidable.em (isLeapYear y = true) with hl | hl
  · rcases (isLeapYear_iff y).mp hl with ⟨h4, h100⟩ | h400
    · interval_cases m <;>
        simp only [monthStartDay, daysBeforeMonth, daysInMonth, jan1DayNumber] <;>
        simp [hl] <;> omega
    · interval_cases m <;>
        simp only [monthStartDay, daysBeforeMonth, daysInMonth, jan1DayNumber] <;>
        simp [hl] <;> omega
  · rw [Bool.not_eq_true] at hl
    have hnl : ¬((y % 4 = 0 ∧ y % 100 ≠ 0) ∨ y % 400 = 0) := fun hc => by
      rw [(isLeapYear_iff y).mpr hc] at hl
      cases hl
    rcases Decidable.em (y % 4 = 0) with ha | ha
    · have hb : y % 100 = 0 := by
        by_contra hb
        exact hnl (Or.inl ⟨ha, hb⟩)
      have hc : y % 400 ≠ 0 := fun hc => hnl (Or.inr hc)
      interval_cases m <;>
        simp only [monthStartDay, daysBeforeMonth, daysInMonth, jan1DayNumber] <;>
        simp [hl] <;> omega
    · have hc : y % 400 ≠ 0 := fun hcc => ha (by omega)
      interval_cases m <;>
        simp only [monthStartDay, daysBeforeMonth, daysInMonth, jan1DayNumber] <;>
        simp [hl] <;> omega

/-- C8: the `/api/worklogs` filter window admits a timestamp `t` iff —
`period=week` — `t`'s local calendar day lies in the same Monday-to-Sunday week
as `now`; `period=month` — `t`'s local calendar day lies between the 1st and
the last day of the current local calendar month; `period=all` (the `else`
branch) — `t` is at most 365 days (clock time preserved) before `now` and not
after the end of the current local day. -/
theorem worklogs_period_ranges (off : Int) (c : CivilNow) (t : Int)
    (hm : 0 ≤ c.month ∧ c.month < 12)
    (hms : 0 ≤ c.msOfDay ∧ c.msOfDay < msPerDay) :
    ((worklogsRange off c "week").1 ≤ t ∧ t ≤ (worklogsRange off c "week").2
      ↔ specMondayWeek (localDayIndex off t)
          = specMondayWeek (localDayIndex off (civilToMs off c)))
    ∧ ((worklogsRange off c "month").1 ≤ t ∧ t ≤ (worklogsRange off c "month").2
      ↔ monthStartDay c.year c.month ≤ localDayIndex off t
        ∧ localDayIndex off t ≤ monthStartDay c.year c.month
            + daysInMonth c.year c.month - 1)
    ∧ ((worklogsRange off c "all").1 ≤ t ∧ t ≤ (worklogsRange off c "all").2
      ↔ civilToMs off c - 365 * msPerDay ≤ t
        ∧ localDayIndex off t ≤ localDayIndex off (civilToMs off c)) := by
  have hwk : worklogsRange off c "week"
      = (weekStartFor off (civilToMs off c), weekEndFor off (civilToMs off c)) := by
    simp [worklogsRange]
  have hmn : worklogsRange off c "month"
      = (setMidnight off (civilToMs off c - (c.day - 1) * msPerDay),
        (monthStartDay c.year (c.month + 1) - 1) * msPerDay + (msPerDay - 1)
          - off * msPerMin) := by
    simp [worklogsRange]
  have hall : worklogsRange off c "all"
      = (civilToMs off c - 365 * msPerDay,
        setMidnight off (civilToMs off c) + (msPerDay - 1)) := by
    simp [worklogsRange]
  refine ⟨?_, ?_, ?_⟩
  · rw [hwk]
    generalize civilToMs off c = N
    simp only [weekStartFor, weekEndFor, specMondayWeek, localWeekday, localDayIndex,
      setMidnight, localMs, msPerDay, msPerMin]
    split_ifs <;> omega
  · rw [hmn]
    have hsucc := monthStartDay_succ c.year c.month hm.1 hm.2
    have hpos := daysInMonth_pos c.year c.month
    rw [hsucc]
    simp only [civilToMs, setMidnight, localMs, localDayIndex, msPerDay, msPerMin] at hms ⊢
    omega
  · rw [hall]
    simp only [civilToMs, setMidnight, localMs, localDayIndex, msPerDay, msPerMin] at hms ⊢
    omega

/-- Witness for C8: the three period characterizations at a concrete civil
`now` (2026-10-12, zero UTC offset) and timestamp `t = 0`. -/
theorem worklogs_period_ranges_witness :
    ((0 : Int) ≤ 9 ∧ (9 : Int) < 12)
    ∧ ((0 : Int) ≤ 0 ∧ (0 : Int) < msPerDay)
    ∧ ((worklogsRange 0 ⟨2026, 9, 12, 0⟩ "week").1 ≤ 0
        ∧ (0 : Int) ≤ (worklogsRange 0 ⟨2026, 9, 12, 0⟩ "week").2
      ↔ specMondayWeek (localDayIndex 0 0)
          = specMondayWeek (localDayIndex 0 (civilToMs 0 ⟨2026, 9, 12, 0⟩)))
    ∧ ((worklogsRange 0 ⟨2026, 9, 12, 0⟩ "month").1 ≤ 0
        ∧ (0 : Int) ≤ (worklogsRange 0 ⟨2026, 9, 12, 0⟩ "month").2
      ↔ monthStartDay 2026 9 ≤ localDayIndex 0 0
        ∧ localDayIndex 0 0 ≤ monthStartDay 2026 9 + daysInMonth 2026 9 - 1)
    ∧ ((worklogsRange 0 ⟨2026, 9, 12, 0⟩ "all").1 ≤ 0
        ∧ (0 : Int) ≤ (worklogsRange 0 ⟨2026, 9, 12, 0⟩ "all").2
      ↔ civilToMs 0 ⟨2026, 9, 12, 0⟩ - 365 * msPerDay ≤ 0
        ∧ localDayIndex 0 0 ≤ localDayIndex 0 (civilToMs 0 ⟨2026, 9, 12, 0⟩)) :=
  have h := worklogs_period_ranges 0 ⟨2026, 9, 12, 0⟩ 0
    ⟨by decide, by decide⟩ ⟨by decide, by decide⟩
  ⟨⟨by decide, by decide⟩, ⟨by decide, by decide⟩, h.1, h.2.1, h.2.2⟩

/-! ## Route handlers: upstream error policy and subtask creation

Each Express handler is a function of the results of its upstream axios calls.
An upstream failure carries `error.message` and the optional
`error.response?.data` payload (`details`). -/

structure UpstreamError where
  message : String
  details : Option String
deriving DecidableEq

abbrev Upstream (α : Type) := Except UpstreamError α

/-- A response body: a success payload, the standard `{ error, details? }`
object, or the health route's `{ status, message, details }` object. -/
inductive RespBody where
  | payload (data : String)
  | errObj (error : String) (details : Option String)
  | statusObj (status message : String) (details : Option String)
deriving DecidableEq

structure Response where
  status : Int
  body : RespBody
deriving DecidableEq

def ok200 (d : String) : Response := ⟨200, .payload d⟩

/-- `GET /api/projects`: the catch responds 500 with `{ error }` only. -/
def projectsRoute (r : Upstream String) : Response :=
  match r with
  | .ok d => ok200 d
  | .error _ => ⟨500, .errObj "Failed to fetch projects" none⟩

/-- `GET /api/issues` (JQL search): 500 with `{ error, details }`. -/
def issuesSearchRoute (r : Upstream String) : Response :=
  match r with
  | .ok d => ok200 d
  | .error e => ⟨500, .errObj "Failed to fetch issues" e.details⟩

/-- `GET /api/issues/:issueKey`: 500 with `{ error }` only. -/
def issueGetRoute (r : Upstream String) : Response :=
  match r with
  | .ok d => ok200 d
  | .error _ => ⟨500, .errObj "Failed to fetch issue" none⟩

/-- `PUT /api/issues/:issueKey`: 500 with `{ error, details }`. -/
def issuePutRoute (r : Upstream String) : Response :=
  match r with
  | .ok d => ok200 d
  | .error e => ⟨500, .errObj "Failed to update issue" e.details⟩

/-- `GET /api/worklogs/daily`: the `myself` and search calls are guarded by
the outer catch; each per-issue worklog fetch failure is caught inside the
loop, logged, and skipped, so it never fails the request. -/
def worklogsDailyRoute (myself : Upstream String)
    (search : Upstream (List IssueData)) : Response :=
  match myself with
  | .error e => ⟨500, .errObj "Failed to fetch daily worklogs" e.details⟩
  | .ok _ =>
    match search with
    | .error e => ⟨500, .errObj "Failed to fetch daily worklogs" e.details⟩
    | .ok _ => ok200 "dailyData"

/-- `GET /api/worklogs` (period summary): same shape as the daily route. -/
def worklogsSummaryRoute (myself : Upstream String)
    (search : Upstream (List IssueData)) : Response :=
  match myself with
  | .error e => ⟨500, .errObj "Failed to fetch worklogs" e.details⟩
  | .ok _ =>
    match search with
    | .error e => ⟨500, .errObj "Failed to fetch worklogs" e.details⟩
    | .ok _ => ok200 "worklogsByIssue"

/-- `POST /api/issues/:issueKey/worklog`. -/
def worklogPostRoute (r : Upstream String) : Response :=
  match r with
  | .ok d => ok200 d
  | .error e => ⟨500, .errObj "Failed to add worklog" e.details⟩

/-- `POST /api/issues/:issueKey/comment`. -/
def commentPostRoute (r : Upstream String) : Response :=
  match r with
  | .ok d => ok200 d
  | .error e => ⟨500, .errObj "Failed to add comment" e.details⟩

/-- `GET /api/statuses`: 500 with `{ error }` only. -/
def statusesRoute (r : Upstream String) : Response :=
  match r with
  | .ok d => ok200 d
  | .error _ => ⟨500, .errObj "Failed to fetch statuses" none⟩

/-- `GET /api/issues/:issueKey/transitions`: 500 with `{ error }` only. -/
def transitionsGetRoute (r : Upstream String) : Response :=
  match r with
  | .ok d => ok200 d
  | .error _ => ⟨500, .errObj "Failed to fetch transitions" none⟩

/-- `POST /api/issues/:issueKey/transitions`. -/
def transitionsPostRoute (r : Upstream String) : Response :=
  match r with
  | .ok d => ok200 d
  | .error e => ⟨500, .errObj "Failed to transition issue" e.details⟩

/-- `GET /api/issues/:issueKey/subtasks`: 500 with `{ error }` only. -/
def subtasksGetRoute (r : Upstream String) : Response :=
  match r with
  | .ok d => ok200 d
  | .error _ => ⟨500, .errObj "Failed to fetch subtasks" none⟩

/-- `GET /api/health`: the error body is `{ status, message, details }` with
`details: error.response?.data || error.message` — no `error` key. -/
def healthRoute (r : Upstream String) : Response :=
  match r with
  | .ok d => ok200 d
  | .error e =>
    ⟨500, .statusObj "error" "Failed to connect to Jira" (some (e.details.getD e.message))⟩

/-- A configured issue type of the parent project
(`GET /project/{key}/statuses` item). -/
structure IssueType where
  id : String
  name : String
  subtask : Bool
deriving DecidableEq

/-- `issueType.name === 'Subtask' || issueType.subtask === true`. -/
def subtaskTypeMatches (it : IssueType) : Bool :=
  it.name == "Subtask" || it.subtask

/-- The `for … break` loop over the project's issue types with the hardcoded
default `'10003'`: the first matching type's id wins. -/
def resolveSubtaskTypeId (ts : List IssueType) : String :=
  match ts.find? subtaskTypeMatches with
  | some it => it.id
  | none => "10003"

/-- `POST /api/issues/:issueKey/subtasks`: fetch parent, fetch issue types,
create the subtask with the resolved type id, then add the template comment —
whose failure is caught inside and does NOT fail the request. -/
def subtasksPostRoute (parent : Upstream String) (types : Upstream (List IssueType))
    (create : String → Upstream String) (_comment : Upstream Unit) : Response :=
  match parent with
  | .error e => ⟨500, .errObj "Failed to create subtask" e.details⟩
  | .ok _ =>
    match types with
    | .error e => ⟨500, .errObj "Failed to create subtask" e.details⟩
    | .ok ts =>
      match create (resolveSubtaskTypeId ts) with
      | .error e => ⟨500, .errObj "Failed to create subtask" e.details⟩
      | .ok key => ok200 key

/-! ## Claim theorems about the routes -/

/-- C6 (amended): every route's OUTER catch maps an upstream failure to HTTP
500 with the route's error object — `{ error, details }` on the routes that
forward the upstream payload, `{ error }` alone on the routes that drop it
(projects, single-issue GET, statuses, transitions GET, subtasks GET), and the
health route's `{ status, message, details }` object without an `error` key —
and an outer upstream failure never yields a success response.  However, two
inner upstream calls are caught and swallowed locally, so their failures still
produce a 200 success: the per-issue worklog fetches of the two worklog
routes, and the template-comment call of subtask creation. -/
theorem route_error_policy :
    (∀ e, projectsRoute (.error e) = ⟨500, .errObj "Failed to fetch projects" none⟩)
    ∧ (∀ d, projectsRoute (.ok d) = ok200 d)
    ∧ (∀ e, issuesSearchRoute (.error e) = ⟨500, .errObj "Failed to fetch issues" e.details⟩)
    ∧ (∀ e, issueGetRoute (.error e) = ⟨500, .errObj "Failed to fetch issue" none⟩)
    ∧ (∀ e, issuePutRoute (.error e) = ⟨500, .errObj "Failed to update issue" e.details⟩)
    ∧ (∀ e search, worklogsDailyRoute (.error e) search
        = ⟨500, .errObj "Failed to fetch daily worklogs" e.details⟩)
    ∧ (∀ a e, worklogsDailyRoute (.ok a) (.error e)
        = ⟨500, .errObj "Failed to fetch daily worklogs" e.details⟩)
    ∧ (∀ a issues, worklogsDailyRoute (.ok a) (.ok issues) = ok200 "dailyData")
    ∧ (∀ e search, worklogsSummaryRoute (.error e) search
        = ⟨500, .errObj "Failed to fetch worklogs" e.details⟩)
    ∧ (∀ a e, worklogsSummaryRoute (.ok a) (.error e)
        = ⟨500, .errObj "Failed to fetch worklogs" e.details⟩)
    ∧ (∀ a issues, worklogsSummaryRoute (.ok a) (.ok issues) = ok200 "worklogsByIssue")
    ∧ (∀ e, worklogPostRoute (.error e) = ⟨500, .errObj "Failed to add worklog" e.details⟩)
    ∧ (∀ e, commentPostRoute (.error e) = ⟨500, .errObj "Failed to add comment" e.details⟩)
    ∧ (∀ e, statusesRoute (.error e) = ⟨500, .errObj "Failed to fetch statuses" none⟩)
    ∧ (∀ e, transitionsGetRoute (.error e)
        = ⟨500, .errObj "Failed to fetch transitions" none⟩)
    ∧ (∀ e, transitionsPostRoute (.error e)
        = ⟨500, .errObj "Failed to transition issue" e.details⟩)
    ∧ (∀ e, subtasksGetRoute (.error e) = ⟨500, .errObj "Failed to fetch subtasks" none⟩)
    ∧ (∀ e types create com, subtasksPostRoute (.error e) types create com
        = ⟨500, .errObj "Failed to create subtask" e.details⟩)
    ∧ (∀ p e create com, subtasksPostRoute (.ok p) (.error e) create com
        = ⟨500, .errObj "Failed to create subtask" e.details⟩)
    ∧ (∀ p ts e com, subtasksPostRoute (.ok p) (.ok ts) (fun _ => .error e) com
        = ⟨500, .errObj "Failed to create subtask" e.details⟩)
    ∧ (∀ p ts key e, subtasksPostRoute (.ok p) (.ok ts) (fun _ => .ok key) (.error e)
        = ok200 key)
    ∧ (∀ e, healthRoute (.error e)
        = ⟨500, .statusObj "error" "Failed to connect to Jira"
            (some (e.details.getD e.message))⟩) :=
  ⟨fun _ => rfl, fun _ => rfl, fun _ => rfl, fun _ => rfl, fun _ => rfl,
   fun _ _ => rfl, fun _ _ => rfl, fun _ _ => rfl, fun _ _ => rfl, fun _ _ => rfl,
   fun _ _ => rfl, fun _ => rfl, fun _ => rfl, fun _ => rfl, fun _ => rfl,
   fun _ => rfl, fun _ => rfl, fun _ _ _ _ => rfl, fun _ _ _ _ => rfl,
   fun _ _ _ _ => rfl, fun _ _ _ _ => rfl, fun _ => rfl⟩

/-- C6 counterexample to the claim as stated: in subtask creation the
template-comment upstream call fails, yet the route returns a 200 success
response; and the projects route drops the upstream error payload even though
the upstream supplied one. -/
theorem route_error_policy_counterexample :
    subtasksPostRoute (.ok "PROJ") (.ok []) (fun _ => .ok "ST-1")
        (.error ⟨"boom", some "errbody"⟩) = ⟨200, .payload "ST-1"⟩
    ∧ projectsRoute (.error ⟨"boom", some "errbody"⟩)
        = ⟨500, .errObj "Failed to fetch projects" none⟩ :=
  ⟨rfl, rfl⟩

/-- C7: subtask creation resolves the issue type from the parent project's
configured types — the id of the FIRST type named `Subtask` or flagged
`subtask` wins, and `'10003'` is used when none matches — and passes exactly
that id to the create call. -/
theorem subtask_type_resolution :
    (∀ ts : List IssueType, (∀ it ∈ ts, subtaskTypeMatches it = false) →
      resolveSubtaskTypeId ts = "10003")
    ∧ (∀ (l1 : List IssueType) (it : IssueType) (l2 : List IssueType),
        (∀ j ∈ l1, subtaskTypeMatches j = false) → subtaskTypeMatches it = true →
        resolveSubtaskTypeId (l1 ++ it :: l2) = it.id)
    ∧ (∀ it : IssueType, subtaskTypeMatches it = (it.name == "Subtask" || it.subtask))
    ∧ (∀ p ts create com, subtasksPostRoute (.ok p) (.ok ts) create com
        = match create (resolveSubtaskTypeId ts) with
          | .error e => ⟨500, .errObj "Failed to create subtask" e.details⟩
          | .ok key => ok200 key) := by
  refine ⟨?_, ?_, fun _ => rfl, fun _ _ _ _ => rfl⟩
  · intro ts h
    unfold resolveSubtaskTypeId
    rw [List.find?_eq_none.mpr (fun x hx => by rw [h x hx]; exact Bool.false_ne_true)]
  · intro l1 it l2 h1 hit
    unfold resolveSubtaskTypeId
    have : (l1 ++ it :: l2).find? subtaskTypeMatches = some it := by
      induction l1 with
      | nil => simp [List.find?_cons, hit]
      | cons j t ih =>
        rw [List.cons_append, List.find?_cons,
          h1 j (List.mem_cons_self j t)]
        exact ih (fun x hx => h1 x (List.mem_cons_of_mem j hx))
    rw [this]

/-- Witness for C7 at concrete issue-type lists. -/
theorem subtask_type_resolution_witness :
    ((∀ it ∈ ([⟨"10001", "Task", false⟩] : List IssueType), subtaskTypeMatches it = false)
      ∧ resolveSubtaskTypeId [⟨"10001", "Task", false⟩] = "10003")
    ∧ ((∀ j ∈ ([⟨"10001", "Task", false⟩] : List IssueType), subtaskTypeMatches j = false)
      ∧ subtaskTypeMatches ⟨"10007", "Subtask", false⟩ = true
      ∧ resolveSubtaskTypeId ([⟨"10001", "Task", false⟩]
          ++ ⟨"10007", "Subtask", false⟩ :: []) = "10007") :=
  ⟨⟨by decide, subtask_type_resolution.1 _ (by decide)⟩,
   ⟨by decide, by decide,
    subtask_type_resolution.2.1 [⟨"10001", "Task", false⟩]
      ⟨"10007", "Subtask", false⟩ [] (by decide) (by decide)⟩⟩

/-- Witness for C4's amended statement at a concrete zero-offset instant. -/
theorem daily_buckets_utc_keyed_witness :
    localWeekday 0 (weekStartFor 0 0) = 1
    ∧ utcDayIndex 42 = localDayIndex 0 42 :=
  ⟨(daily_buckets_utc_keyed 0 0 "a" [] 0).1,
   (daily_buckets_utc_keyed 0 0 "a" [] 0).2.2.2.2 rfl 42⟩
